import Mathlib

/-!
Verification of `dom-manipulation/script.js` (browser quote-list manager).

The file is a shallow embedding of the script's repository-level logic:
the in-memory `quotes` array, the add / import / export operations, the
server-sync merge loop, local-storage load, and the random-quote display.
DOM rendering is abstracted into result values (status messages, alert
messages, display states); `localStorage` writes are recorded as a `saved`
flag; the network is an explicit fetch outcome passed to the sync cycle.

The source contains two variants of the script (an earlier and a later
revision concatenated); where they differ (the error path of the sync
cycle) both are embedded, as `syncWithServerA` (the variant with a
separate `fetchQuotesFromServer` helper, lines 58-73 / 200-221) and
`syncWithServerB` (the variant whose whole cycle sits in one try/catch,
lines 451-485).
-/

/-- A JavaScript primitive value as far as the script inspects one:
`typeof v === 'string'` and truthiness are the only observations made. -/
inductive JSVal where
  | vstr : String → JSVal
  | vnum : Int → JSVal
  | vbool : Bool → JSVal
  | vnull : JSVal
deriving DecidableEq

/-- JavaScript truthiness for the modelled primitive values. -/
def truthy : JSVal → Bool
  | .vstr s => s ≠ ""
  | .vnum n => n ≠ 0
  | .vbool b => b
  | .vnull => false

/-- A quote record `{ text, category, author? }`.  `author` is optional and
is only ever copied around, never inspected beyond truthiness, so it keeps
the raw `JSVal` shape. -/
structure Quote where
  text : String
  category : String
  author : Option JSVal := none
deriving DecidableEq

/-- Model of JavaScript `String.prototype.trim()`: strip leading and
trailing whitespace.  Implemented over the character list so that it
evaluates by kernel reduction (Lean's own `String.trim` is equivalent but
defined by well-founded recursion on byte positions). -/
def jsTrim (s : String) : String :=
  ⟨((s.data.dropWhile Char.isWhitespace).reverse.dropWhile Char.isWhitespace).reverse⟩

-- ---------- Web Storage (`loadQuotes`, `getDefaultQuotes`) ----------

/-- `getDefaultQuotes()` (script.js lines 101-106 / 357-362). -/
def getDefaultQuotes : List Quote :=
  [ { text := "The only way to do great work is to love what you do.",
      category := "Motivational" },
    { text := "Life is what happens when you're busy making other plans.",
      category := "Life" } ]

/-- `loadQuotes()` (script.js lines 80-91 / 335-346).  `stored` is
`localStorage.getItem(QUOTES_STORAGE_KEY)` (`none` = key absent); `parse`
is an abstract model of `JSON.parse` restricted to values that become the
repository, with `none` for a parse failure (the `catch` branch).  The
outer `if (stored)` tests JavaScript truthiness, so the empty string also
falls back to the defaults. -/
def loadQuotes (stored : Option String) (parse : String → Option (List Quote)) :
    List Quote :=
  match stored with
  | some s =>
      if s ≠ "" then
        match parse s with
        | some v => v
        | none => getDefaultQuotes
      else getDefaultQuotes
  | none => getDefaultQuotes

-- ---------- Add Quote (`addQuote`) ----------

/-- Result of a repository-mutating DOM handler: the new `quotes` array,
whether `saveQuotes()` ran, and the `alert(...)` message if one was shown
(success alerts included). -/
structure OpResult where
  quotes : List Quote
  saved : Bool
  alert : Option String
deriving DecidableEq

/-- `addQuote()` (script.js lines 171-197 / 427-448) on the repository
state, with the two input field values as arguments.  The category field
defaults to `'General'` when its trimmed value is empty
(`categoryInput.value.trim() || 'General'`). -/
def addQuote (quotes : List Quote) (textInput categoryInput : String) : OpResult :=
  let text := jsTrim textInput
  let category := if jsTrim categoryInput = "" then "General" else jsTrim categoryInput
  if text = "" then
    { quotes := quotes, saved := false, alert := some "Please enter a quote text." }
  else
    { quotes := quotes ++ [{ text := text, category := category }],
      saved := true, alert := none }

/-- Claim C2: adding with blank (empty or whitespace-only) text leaves the
repository unchanged, persists nothing and takes the alert branch; adding
with non-blank text appends exactly one record carrying the trimmed
text. -/
theorem c2_addQuote_blank_or_appends (quotes : List Quote) (t c : String) :
    (jsTrim t = "" →
      addQuote quotes t c =
        { quotes := quotes, saved := false, alert := some "Please enter a quote text." }) ∧
    (jsTrim t ≠ "" →
      (addQuote quotes t c).saved = true ∧ (addQuote quotes t c).alert = none ∧
      ∃ q, (addQuote quotes t c).quotes = quotes ++ [q] ∧ q.text = jsTrim t) := by
  constructor
  · intro hblank
    simp [addQuote, hblank]
  · intro htext
    refine ⟨?_, ?_, ?_⟩
    · simp [addQuote, htext]
    · simp [addQuote, htext]
    · refine ⟨{ text := jsTrim t,
                category := if jsTrim c = "" then "General" else jsTrim c }, ?_, rfl⟩
      simp [addQuote, htext]

theorem c2_addQuote_blank_or_appends_witness :
    (addQuote [] "   " "Life" =
      { quotes := [], saved := false, alert := some "Please enter a quote text." }) ∧
    ∃ q, (addQuote [] " stay hungry " "").quotes = [] ++ [q] ∧ q.text = jsTrim " stay hungry " :=
  ⟨(c2_addQuote_blank_or_appends [] "   " "Life").1 (by decide),
   ((c2_addQuote_blank_or_appends [] " stay hungry " "").2 (by decide)).2.2⟩

/-- Claim C6: loading returns the built-in default two-quote list when the
storage key is absent or the stored text fails to parse as JSON, and the
parsed value becomes the repository whenever parsing succeeds.  The
hypothesis records that `JSON.parse` rejects the empty string (so the
JavaScript truthiness test `if (stored)` agrees with the parse-failure
reading for `stored = ""`). -/
theorem c6_load_defaults_or_parsed (parse : String → Option (List Quote))
    (hempty : parse "" = none) :
    loadQuotes none parse = getDefaultQuotes ∧
    ∀ s, loadQuotes (some s) parse =
      match parse s with
      | some v => v
      | none => getDefaultQuotes := by
  refine ⟨rfl, fun s => ?_⟩
  by_cases hs : s = ""
  · subst hs
    simp [loadQuotes, hempty]
  · simp [loadQuotes, hs]

theorem c6_load_defaults_or_parsed_witness :
    loadQuotes none (fun _ => none) = getDefaultQuotes ∧
    ∀ s, loadQuotes (some s) (fun _ => none) =
      match (none : Option (List Quote)) with
      | some v => v
      | none => getDefaultQuotes :=
  c6_load_defaults_or_parsed (fun _ => none) rfl

-- ---------- Server Sync (`fetchQuotesFromServer`, `syncWithServer`) ----------

/-- One item of the JSON body returned by the quotes API (`data.quotes`):
the two fields the script reads. -/
structure ServerQuote where
  quote : String
  author : String
deriving DecidableEq

/-- The mapping applied to the fetched body (script.js lines 63-67 /
459-463): `{ text: q.quote, category: 'Server', author: q.author }`. -/
def mapServerQuotes (data : List ServerQuote) : List Quote :=
  data.map fun q =>
    { text := q.quote, category := "Server", author := some (JSVal.vstr q.author) }

/-- Outcome of `await fetch(SERVER_URL)` followed by `response.json()`:
either the decoded body, or a thrown error with its message (a non-ok
response throws `'Network error'`). -/
inductive FetchOutcome where
  | ok : List ServerQuote → FetchOutcome
  | fail : String → FetchOutcome
deriving DecidableEq

/-- `fetchQuotesFromServer()` (script.js lines 58-73, first variant):
returns the mapped quotes, or on any error sets the error status and
returns `[]`.  The second component is the list of status messages the
call sets. -/
def fetchQuotesFromServer (r : FetchOutcome) : List Quote × List (String × String) :=
  match r with
  | .ok data => (mapServerQuotes data, [])
  | .fail msg => ([], [("Sync failed: " ++ msg, "sync-error")])

/-- The merge loop of `syncWithServer` (script.js lines 206-211 / 467-472):
`serverQuotes.forEach(sq => { if (!quotes.some(lq => lq.text === sq.text)) quotes.push(sq); })`.
Each membership check runs against the array as already extended by the
earlier pushes of the same loop. -/
def mergeLoop : List Quote → List Quote → List Quote
  | acc, [] => acc
  | acc, sq :: rest =>
      if acc.any (fun lq => lq.text == sq.text) then mergeLoop acc rest
      else mergeLoop (acc ++ [sq]) rest

/-- The sublist of server items the merge loop appends to `seen`: those
whose text matches neither a record of `seen` nor an earlier kept item. -/
def dedupFilter (seen : List Quote) : List Quote → List Quote
  | [] => []
  | sq :: rest =>
      if seen.any (fun lq => lq.text == sq.text) then dedupFilter seen rest
      else sq :: dedupFilter (seen ++ [sq]) rest

theorem mergeLoop_eq_append_dedup (server seen : List Quote) :
    mergeLoop seen server = seen ++ dedupFilter seen server := by
  induction server generalizing seen with
  | nil => simp [mergeLoop, dedupFilter]
  | cons sq rest ih =>
    by_cases h : seen.any (fun lq => lq.text == sq.text) = true
    · simp [mergeLoop, dedupFilter, h, ih]
    · simp only [mergeLoop, dedupFilter, h, if_false, Bool.false_eq_true]
      rw [ih (seen ++ [sq])]
      simp

theorem dedupFilter_not_mem_seen (l : List Quote) :
    ∀ (seen : List Quote) (q : Quote), q ∈ dedupFilter seen l →
      seen.any (fun lq => lq.text == q.text) = false := by
  induction l with
  | nil => intro seen q hq; simp [dedupFilter] at hq
  | cons sq rest ih =>
    intro seen q hq
    by_cases h : seen.any (fun lq => lq.text == sq.text) = true
    · simp only [dedupFilter, h, if_true] at hq
      exact ih seen q hq
    · simp only [dedupFilter, h, if_false, Bool.false_eq_true, List.mem_cons] at hq
      rcases hq with rfl | hq
      · exact Bool.eq_false_iff.mpr h
      · have := ih (seen ++ [sq]) q hq
        rw [List.any_append] at this
        exact (Bool.or_eq_false_iff.mp this).1

theorem dedupFilter_pairwise (l : List Quote) :
    ∀ seen : List Quote,
      (dedupFilter seen l).Pairwise (fun a b => a.text ≠ b.text) := by
  induction l with
  | nil => intro seen; simp [dedupFilter]
  | cons sq rest ih =>
    intro seen
    by_cases h : seen.any (fun lq => lq.text == sq.text) = true
    · simp only [dedupFilter, h, if_true]
      exact ih seen
    · simp only [dedupFilter, h, if_false, Bool.false_eq_true]
      refine List.Pairwise.cons ?_ (ih (seen ++ [sq]))
      intro b hb
      have hfalse := dedupFilter_not_mem_seen rest (seen ++ [sq]) b hb
      rw [List.any_append] at hfalse
      have : (List.any [sq] fun lq => lq.text == b.text) = false :=
        (Bool.or_eq_false_iff.mp hfalse).2
      simp only [List.any_cons, List.any_nil, Bool.or_false] at this
      exact fun hcontra => by simp [hcontra] at this

theorem mergeLoop_any_of_mem (l : List Quote) :
    ∀ (seen : List Quote) (sq : Quote), sq ∈ l →
      (mergeLoop seen l).any (fun lq => lq.text == sq.text) = true := by
  induction l with
  | nil => intro seen sq h; simp at h
  | cons hd rest ih =>
    intro seen sq hmem
    rcases List.mem_cons.mp hmem with rfl | hmem
    · by_cases h : seen.any (fun lq => lq.text == sq.text) = true
      · simp only [mergeLoop, h, if_true]
        rw [mergeLoop_eq_append_dedup, List.any_append, h, Bool.true_or]
      · simp only [mergeLoop, h, if_false, Bool.false_eq_true]
        rw [mergeLoop_eq_append_dedup, List.any_append, List.any_append]
        simp
    · by_cases h : seen.any (fun lq => lq.text == hd.text) = true
      · simp only [mergeLoop, h, if_true]
        exact ih seen sq hmem
      · simp only [mergeLoop, h, if_false, Bool.false_eq_true]
        exact ih (seen ++ [hd]) sq hmem

theorem mergeLoop_noop (l : List Quote) :
    ∀ seen : List Quote,
      (∀ sq ∈ l, seen.any (fun lq => lq.text == sq.text) = true) →
      mergeLoop seen l = seen := by
  induction l with
  | nil => intro seen _; rfl
  | cons hd rest ih =>
    intro seen hall
    have hhd := hall hd (List.mem_cons_self hd rest)
    simp only [mergeLoop, hhd, if_true]
    exact ih seen fun sq h => hall sq (List.mem_cons_of_mem hd h)

theorem dedupFilter_congr_seen (l : List Quote) :
    ∀ s₁ s₂ : List Quote,
      (∀ x ∈ l, s₁.any (fun lq => lq.text == x.text) = s₂.any (fun lq => lq.text == x.text)) →
      dedupFilter s₁ l = dedupFilter s₂ l := by
  induction l with
  | nil => intro s₁ s₂ _; rfl
  | cons sq rest ih =>
    intro s₁ s₂ hagree
    have hsq := hagree sq (List.mem_cons_self sq rest)
    by_cases h : s₂.any (fun lq => lq.text == sq.text) = true
    · rw [h] at hsq
      simp only [dedupFilter, h, hsq, if_true]
      exact ih s₁ s₂ fun x hx => hagree x (List.mem_cons_of_mem sq hx)
    · rw [Bool.eq_false_iff.mpr h] at hsq
      simp only [dedupFilter, h, hsq, if_false, Bool.false_eq_true]
      congr 1
      refine ih (s₁ ++ [sq]) (s₂ ++ [sq]) fun x hx => ?_
      rw [List.any_append, List.any_append,
        hagree x (List.mem_cons_of_mem sq hx)]

theorem dedupFilter_eq_filter_of_pairwise (server : List Quote) :
    ∀ loc : List Quote, server.Pairwise (fun a b => a.text ≠ b.text) →
      dedupFilter loc server =
        server.filter (fun sq => !(loc.any (fun lq => lq.text == sq.text))) := by
  induction server with
  | nil => intro loc _; rfl
  | cons sq rest ih =>
    intro loc hpw
    rcases List.pairwise_cons.mp hpw with ⟨hhead, hrest⟩
    by_cases h : loc.any (fun lq => lq.text == sq.text) = true
    · simp only [dedupFilter, h, if_true, List.filter_cons, Bool.not_true,
        Bool.false_eq_true, if_false]
      exact ih loc hrest
    · simp only [dedupFilter, h, if_false, List.filter_cons, Bool.eq_false_iff.mpr h,
        Bool.not_false, if_true, Bool.false_eq_true]
      congr 1
      rw [dedupFilter_congr_seen rest (loc ++ [sq]) loc ?_]
      · exact ih loc hrest
      · intro x hx
        rw [List.any_append]
        have : (List.any [sq] fun lq => lq.text == x.text) = false := by
          simp only [List.any_cons, List.any_nil, Bool.or_false]
          exact beq_eq_false_iff_ne.mpr (hhead x hx)
        rw [this, Bool.or_false]

/-- The status message `syncWithServer` sets after the merge (script.js
lines 213-220 / 474-481). -/
def mergeStatus (newAdded : Nat) : String × String :=
  if newAdded > 0 then
    ("Sync complete: " ++ toString newAdded ++ " new quote(s) added from server.",
     "sync-success")
  else
    ("Sync complete: No new quotes from server.", "sync-success")

/-- Observable result of one sync cycle: the repository, whether
`saveQuotes()` ran, every status message set during the cycle in order,
and how many times `fetch` was called. -/
structure CycleResult where
  quotes : List Quote
  saved : Bool
  statuses : List (String × String)
  fetches : Nat
deriving DecidableEq

/-- `syncWithServer()` of the first variant (script.js lines 200-221): the
fetch failure is absorbed inside `fetchQuotesFromServer`, which returns
`[]`, so the cycle always continues into the merge and final status. -/
def syncWithServerA (quotes : List Quote) (r : FetchOutcome) : CycleResult :=
  let fr := fetchQuotesFromServer r
  let merged := mergeLoop quotes fr.1
  let newAdded := merged.length - quotes.length
  { quotes := merged,
    saved := decide (newAdded > 0),
    statuses := ("Syncing with server...", "sync-warning") :: fr.2 ++ [mergeStatus newAdded],
    fetches := 1 }

/-- `syncWithServer()` of the second variant (script.js lines 451-485):
the whole cycle sits in one try/catch, so a fetch failure jumps straight
to the catch and the cycle really aborts. -/
def syncWithServerB (quotes : List Quote) (r : FetchOutcome) : CycleResult :=
  match r with
  | .ok data =>
      let merged := mergeLoop quotes (mapServerQuotes data)
      let newAdded := merged.length - quotes.length
      { quotes := merged,
        saved := decide (newAdded > 0),
        statuses := [("Syncing with server...", "sync-warning"), mergeStatus newAdded],
        fetches := 1 }
  | .fail msg =>
      { quotes := quotes, saved := false,
        statuses := [("Syncing with server...", "sync-warning"),
                     ("Sync failed: " ++ msg, "sync-error")],
        fetches := 1 }

/-- Claim C5 (counterexample): in the first variant a failing fetch does
not abort the cycle — the error status is later overwritten by the
"Sync complete: No new quotes from server." success status, so the error
message is not the last status of the cycle. -/
theorem c5_counterexample :
    ¬ ((syncWithServerA [] (.fail "Network error")).statuses.getLast? =
       some ("Sync failed: Network error", "sync-error")) := by
  decide

/-- Claim C5 (amended): a failing fetch sets the error status, leaves the
repository and the persisted store unchanged, and fetches exactly once.
In the try/catch variant (`syncWithServerB`) the cycle then aborts with
the error status as its last message; in the separate-helper variant
(`syncWithServerA`) the cycle continues with an empty server list and
finishes by setting a "No new quotes" success status after the error. -/
theorem c5_fetch_failure (quotes : List Quote) (msg : String) :
    syncWithServerB quotes (.fail msg) =
      { quotes := quotes, saved := false,
        statuses := [("Syncing with server...", "sync-warning"),
                     ("Sync failed: " ++ msg, "sync-error")],
        fetches := 1 } ∧
    syncWithServerA quotes (.fail msg) =
      { quotes := quotes, saved := false,
        statuses := [("Syncing with server...", "sync-warning"),
                     ("Sync failed: " ++ msg, "sync-error"),
                     ("Sync complete: No new quotes from server.", "sync-success")],
        fetches := 1 } := by
  constructor
  · rfl
  · simp [syncWithServerA, fetchQuotesFromServer, mergeLoop, mergeStatus]

/-- Claim C1 (counterexample): the merge does not append every server item
whose text is new relative to the pre-merge repository — when the fetched
batch itself repeats a text, only the first occurrence is appended, so the
appended items are not `server.filter (text not in local)`. -/
theorem c1_counterexample :
    ¬ (mergeLoop []
        [{ text := "Stay hungry.", category := "Server" },
         { text := "Stay hungry.", category := "Server" }] =
      [] ++ List.filter
        (fun sq => !(List.any ([] : List Quote) (fun lq => lq.text == sq.text)))
        [{ text := "Stay hungry.", category := "Server" },
         { text := "Stay hungry.", category := "Server" }]) := by
  decide

/-- Claim C1 (amended): the merge appends exactly those server items whose
text matches neither a pre-merge local record nor an earlier-appended item
of the same batch (`dedupFilter`); every appended item's text is absent
from the pre-merge repository, so the merge never inserts a text already
present; and when the batch has pairwise-distinct texts the appended items
are exactly the server items whose text has no match among the local
records. -/
theorem c1_merge_appends_nonmatching (loc server : List Quote) :
    mergeLoop loc server = loc ++ dedupFilter loc server ∧
    (∀ q ∈ dedupFilter loc server, ∀ lq ∈ loc, ¬ lq.text = q.text) ∧
    (server.Pairwise (fun a b => a.text ≠ b.text) →
      dedupFilter loc server =
        server.filter (fun sq => !(loc.any (fun lq => lq.text == sq.text)))) := by
  refine ⟨mergeLoop_eq_append_dedup server loc, ?_, ?_⟩
  · intro q hq lq hlq hcontra
    have hfalse := dedupFilter_not_mem_seen server loc q hq
    have htrue : (loc.any fun x => x.text == q.text) = true :=
      List.any_eq_true.mpr ⟨lq, hlq, by simp [hcontra]⟩
    rw [htrue] at hfalse
    exact absurd hfalse (by simp)
  · exact dedupFilter_eq_filter_of_pairwise server loc

theorem c1_merge_appends_nonmatching_witness :
    dedupFilter [{ text := "A", category := "Local" }]
        [{ text := "A", category := "Server" }, { text := "B", category := "Server" }] =
      List.filter
        (fun sq => !(List.any ([{ text := "A", category := "Local" }] : List Quote)
          (fun lq => lq.text == sq.text)))
        [{ text := "A", category := "Server" }, { text := "B", category := "Server" }] :=
  (c1_merge_appends_nonmatching
    [{ text := "A", category := "Local" }]
    [{ text := "A", category := "Server" }, { text := "B", category := "Server" }]).2.2
    (by decide)

/-- Claim C9: the merge is idempotent — merging the same server batch into
the already-merged repository appends nothing — and it deduplicates within
a single batch: the items appended by one merge have pairwise-distinct
texts, so of two batch items with identical text at most one is
appended. -/
theorem c9_merge_idempotent_dedup (quotes server : List Quote) :
    mergeLoop (mergeLoop quotes server) server = mergeLoop quotes server ∧
    ((mergeLoop quotes server).drop quotes.length).Pairwise
      (fun a b => a.text ≠ b.text) := by
  constructor
  · exact mergeLoop_noop server _ fun sq h => mergeLoop_any_of_mem server quotes sq h
  · rw [mergeLoop_eq_append_dedup, List.drop_left]
    exact dedupFilter_pairwise server quotes

-- ---------- JSON Import/Export (`importFromJsonFile`, `exportQuotes`) ----------

/-- A parsed element of an imported JSON array: the three fields the
script reads, each possibly absent.  `none` at the outer level models a
null/absent array element (rejected by the `q &&` guard). -/
structure RawEntry where
  text : Option JSVal := none
  category : Option JSVal := none
  author : Option JSVal := none
deriving DecidableEq

/-- The filter of `importFromJsonFile` (script.js line 259 / 527):
`q && typeof q.text === 'string' && q.text.trim()` — keep an entry exactly
when it is an object whose `text` is a string with non-empty trim. -/
def importKeep (e : Option RawEntry) : Bool :=
  match e with
  | some q =>
      match q.text with
      | some (JSVal.vstr s) => jsTrim s ≠ ""
      | _ => false
  | none => false

/-- The map of `importFromJsonFile` (script.js lines 260-264 / 528-532).
It only runs on entries kept by `importKeep`, whose `text` is a string;
the `""` fallback branch is unreachable there.  `category` is used only
when it is a truthy (hence non-empty) string, else `'General'`; `author`
is `q.author || undefined`. -/
def importMap (e : Option RawEntry) : Quote :=
  match e with
  | some q =>
      { text := jsTrim (match q.text with | some (JSVal.vstr s) => s | _ => "")
        category :=
          match q.category with
          | some (JSVal.vstr c) => if c ≠ "" then jsTrim c else "General"
          | _ => "General"
        author :=
          match q.author with
          | some a => if truthy a then some a else none
          | none => none }
  | none => { text := "", category := "General" }

/-- `validQuotes` of `importFromJsonFile` (script.js lines 258-264 /
526-532): the filtered and mapped import candidates. -/
def validQuotes (imported : List (Option RawEntry)) : List Quote :=
  (imported.filter importKeep).map importMap

/-- `importFromJsonFile` (script.js lines 248-281 / 516-549) after the
file has been read: `parsed` is the `JSON.parse` result of the file text,
with `none` for a parse failure or a non-array value (the
`Invalid format` throw lands in the same catch). -/
def importFromJsonFile (quotes : List Quote)
    (parsed : Option (List (Option RawEntry))) : OpResult :=
  match parsed with
  | none => { quotes := quotes, saved := false, alert := some "Invalid JSON file." }
  | some imported =>
      let valid := validQuotes imported
      if valid.length = 0 then
        { quotes := quotes, saved := false, alert := some "No valid quotes found." }
      else
        { quotes := quotes ++ valid, saved := true,
          alert := some ("Imported " ++ toString valid.length ++ " local quote(s)!") }

/-- `exportQuotes` (script.js lines 233-246 / 501-514) composed with
`JSON.parse` of the downloaded file: `JSON.stringify` of the quotes array
yields an array of objects whose `text`/`category` fields parse back to
the same strings; an `undefined` author is omitted by `JSON.stringify`
and reads back as absent.  (The empty-repository guard only suppresses
the download itself.) -/
def exportEntries (quotes : List Quote) : List (Option RawEntry) :=
  quotes.map fun q =>
    some { text := some (JSVal.vstr q.text),
           category := some (JSVal.vstr q.category),
           author := q.author }

/-- The `{text, category}` projection compared by the round-trip claim. -/
def pairOf (q : Quote) : String × String := (q.text, q.category)

/-- Claim C4: import appends exactly the entries whose `text` field is a
string that is non-empty after trimming; each kept entry becomes a record
with the trimmed text, with `category` defaulting to `'General'` whenever
the field is absent, not a string, or the empty string; and a two-element
array with one valid and one text-less entry appends exactly one
record. -/
theorem c4_import_appends_valid (quotes : List Quote)
    (imported : List (Option RawEntry)) :
    (importFromJsonFile quotes (some imported)).quotes = quotes ++ validQuotes imported ∧
    (∀ e : Option RawEntry, importKeep e = true ↔
      ∃ r s, e = some r ∧ r.text = some (JSVal.vstr s) ∧ jsTrim s ≠ "") ∧
    (∀ r : RawEntry,
      (r.category = none ∨ r.category = some (JSVal.vstr "") ∨
        ∀ s, r.category ≠ some (JSVal.vstr s)) →
      (importMap (some r)).category = "General") ∧
    (∀ r s, r.text = some (JSVal.vstr s) → (importMap (some r)).text = jsTrim s) ∧
    (∀ e₁ e₂ : RawEntry, importKeep (some e₁) = true → e₂.text = none →
      (importFromJsonFile quotes (some [some e₁, some e₂])).quotes.length
        = quotes.length + 1) := by
  refine ⟨?_, ?_, ?_, ?_, ?_⟩
  · by_cases h : (validQuotes imported).length = 0
    · rw [List.length_eq_zero] at h
      simp [importFromJsonFile, h]
    · simp only [importFromJsonFile]
      rw [if_neg (by simpa using h)]
  · intro e
    constructor
    · intro hk
      match e with
      | none => simp [importKeep] at hk
      | some r =>
        match hr : r.text with
        | some (JSVal.vstr s) =>
          refine ⟨r, s, rfl, hr, ?_⟩
          simpa [importKeep, hr] using hk
        | some (JSVal.vnum _) => simp [importKeep, hr] at hk
        | some (JSVal.vbool _) => simp [importKeep, hr] at hk
        | some JSVal.vnull => simp [importKeep, hr] at hk
        | none => simp [importKeep, hr] at hk
    · rintro ⟨r, s, rfl, hr, hs⟩
      simp [importKeep, hr, hs]
  · intro r hcases
    rcases hcases with h | h | h
    · simp [importMap, h]
    · simp [importMap, h]
    · match hc : r.category with
      | some (JSVal.vstr s) => exact absurd hc (h s)
      | some (JSVal.vnum _) => simp [importMap, hc]
      | some (JSVal.vbool _) => simp [importMap, hc]
      | some JSVal.vnull => simp [importMap, hc]
      | none => simp [importMap, hc]
  · intro r s hr
    simp [importMap, hr]
  · intro e₁ e₂ hk1 hk2
    have hdrop : importKeep (some e₂) = false := by
      simp [importKeep, hk2]
    have hvalid : validQuotes [some e₁, some e₂] = [importMap (some e₁)] := by
      simp [validQuotes, List.filter_cons, hk1, hdrop]
    simp [importFromJsonFile, hvalid]

theorem c4_import_appends_valid_witness :
    (importFromJsonFile []
      (some [some { text := some (JSVal.vstr "Be yourself.") },
             some { category := some (JSVal.vstr "Wisdom") }])).quotes.length
      = List.length ([] : List Quote) + 1 :=
  (c4_import_appends_valid []
      [some { text := some (JSVal.vstr "Be yourself.") },
       some { category := some (JSVal.vstr "Wisdom") }]).2.2.2.2
    { text := some (JSVal.vstr "Be yourself.") }
    { category := some (JSVal.vstr "Wisdom") }
    (by decide) rfl

/-- Claim C3 (counterexample): the export/import round trip is not the
identity on `{text, category}` pairs for every repository list — a record
whose text carries leading/trailing whitespace (reachable, e.g. fetched
from the server verbatim) comes back trimmed, so the two pair multisets
differ. -/
theorem c3_counterexample :
    ¬ List.Perm
        ((validQuotes (exportEntries [{ text := "  hi  ", category := "X" }])).map pairOf)
        (List.map pairOf [{ text := "  hi  ", category := "X" }]) := by
  decide

/-- Claim C3 (amended): for every repository list whose records all have
non-empty, whitespace-clean text and non-empty, whitespace-clean category,
exporting and re-importing reproduces the `{text, category}` pairs exactly
(in fact in the same order, so also as a set). -/
theorem c3_roundtrip_of_clean (quotes : List Quote)
    (h : ∀ q ∈ quotes, jsTrim q.text = q.text ∧ q.text ≠ "" ∧
      jsTrim q.category = q.category ∧ q.category ≠ "") :
    (validQuotes (exportEntries quotes)).map pairOf = quotes.map pairOf := by
  induction quotes with
  | nil => rfl
  | cons q rest ih =>
    obtain ⟨ht, htne, hc, hcne⟩ := h q (List.mem_cons_self q rest)
    have htrim : jsTrim q.text ≠ "" := by rw [ht]; exact htne
    have hkeep : importKeep (some
        { text := some (JSVal.vstr q.text),
          category := some (JSVal.vstr q.category), author := q.author }) = true := by
      simp [importKeep, htrim]
    have hmap : importMap (some
        { text := some (JSVal.vstr q.text),
          category := some (JSVal.vstr q.category), author := q.author }) =
        { text := q.text, category := q.category,
          author := match q.author with
            | some a => if truthy a then some a else none
            | none => none } := by
      simp [importMap, ht, hcne, hc]
    have hrest := ih fun x hx => h x (List.mem_cons_of_mem q hx)
    simp only [exportEntries, List.map_cons] at hrest ⊢
    simp only [validQuotes, List.filter_cons, hkeep, if_true, List.map_cons] at hrest ⊢
    rw [hmap]
    simp only [pairOf, List.map_cons]
    exact congrArg _ hrest

theorem c3_roundtrip_of_clean_witness :
    (validQuotes (exportEntries [{ text := "hi", category := "X" }])).map pairOf =
      List.map pairOf [{ text := "hi", category := "X" }] :=
  c3_roundtrip_of_clean [{ text := "hi", category := "X" }] (by decide)

-- ---------- Quote Display (`showRandomQuote`) ----------

/-- The display states `showRandomQuote` can leave the container in:
the `'No quotes available.'` marker, or the rendered list handed to
`displayQuotes` (a JavaScript out-of-range index would hand over
`undefined`, modelled as `none`). -/
inductive Display where
  | noQuotes : Display
  | shown : List (Option Quote) → Display
deriving DecidableEq

/-- JavaScript array indexing `quotes[i]`: `undefined` outside bounds. -/
def jsIndex (l : List Quote) (i : Int) : Option Quote :=
  if 0 ≤ i then l.get? i.toNat else none

/-- `showRandomQuote()` (script.js lines 161-168 / 417-424) with the value
of `Math.random()` — a number in `[0, 1)` — passed in as `r`:
`randomIndex = Math.floor(Math.random() * quotes.length)`, then a
one-element render of `quotes[randomIndex]`. -/
def showRandomQuote (quotes : List Quote) (r : ℚ) : Display × List Quote :=
  if quotes.length = 0 then
    (Display.noQuotes, quotes)
  else
    (Display.shown [jsIndex quotes ⌊r * (quotes.length : ℚ)⌋], quotes)

/-- Claim C7: with an empty repository, requesting a random quote yields
the "no quotes available" display state, returns normally, and leaves the
(empty) repository untouched. -/
theorem c7_empty_no_quotes (r : ℚ) :
    showRandomQuote [] r = (Display.noQuotes, []) :=
  rfl

/-- Claim C10: with a non-empty repository and `Math.random()` in `[0,1)`,
the computed index `⌊r·length⌋` lies in `[0, length)`, exactly one record
is displayed, that record belongs to the repository, and the repository is
unchanged. -/
theorem c10_random_in_bounds (quotes : List Quote) (r : ℚ)
    (hne : quotes ≠ []) (h0 : 0 ≤ r) (h1 : r < 1) :
    (0 : Int) ≤ ⌊r * (quotes.length : ℚ)⌋ ∧
    ⌊r * (quotes.length : ℚ)⌋ < (quotes.length : Int) ∧
    ∃ q, q ∈ quotes ∧ showRandomQuote quotes r = (Display.shown [some q], quotes) := by
  have hlen : 0 < quotes.length := List.length_pos.mpr hne
  have hfl0 : (0 : Int) ≤ ⌊r * (quotes.length : ℚ)⌋ :=
    Int.floor_nonneg.mpr (mul_nonneg h0 (by positivity))
  have hflt : ⌊r * (quotes.length : ℚ)⌋ < (quotes.length : Int) := by
    apply Int.floor_lt.mpr
    push_cast
    calc r * (quotes.length : ℚ) < 1 * (quotes.length : ℚ) :=
          mul_lt_mul_of_pos_right h1 (by exact_mod_cast hlen)
      _ = (quotes.length : ℚ) := one_mul _
  refine ⟨hfl0, hflt, ?_⟩
  have hlt : ⌊r * (quotes.length : ℚ)⌋.toNat < quotes.length := by omega
  refine ⟨quotes.get ⟨⌊r * (quotes.length : ℚ)⌋.toNat, hlt⟩, List.get_mem _ _ _, ?_⟩
  have hidx : jsIndex quotes ⌊r * (quotes.length : ℚ)⌋ =
      some (quotes.get ⟨⌊r * (quotes.length : ℚ)⌋.toNat, hlt⟩) := by
    rw [jsIndex, if_pos hfl0]
    exact List.get?_eq_get hlt
  rw [showRandomQuote, if_neg (by omega), hidx]

theorem c10_random_in_bounds_witness :
    (0 : Int) ≤ ⌊(0 : ℚ) * ((List.length [({ text := "a", category := "b" } : Quote)] : ℚ))⌋ ∧
    ⌊(0 : ℚ) * ((List.length [({ text := "a", category := "b" } : Quote)] : ℚ))⌋ <
      (List.length [({ text := "a", category := "b" } : Quote)] : Int) ∧
    ∃ q, q ∈ [({ text := "a", category := "b" } : Quote)] ∧
      showRandomQuote [{ text := "a", category := "b" }] 0 =
        (Display.shown [some q], [{ text := "a", category := "b" }]) :=
  c10_random_in_bounds [{ text := "a", category := "b" }] 0
    (by decide) le_rfl (by norm_num)

/-- Claim C8: every repository-mutating operation — add, import, and the
sync merge — preserves the existing records (each is still present, with
its text and category, afterwards) and never shrinks the repository. -/
theorem c8_mutators_preserve (quotes : List Quote) (t c : String)
    (parsed : Option (List (Option RawEntry))) (server : List Quote) :
    ((∀ q ∈ quotes, q ∈ (addQuote quotes t c).quotes) ∧
      quotes.length ≤ (addQuote quotes t c).quotes.length) ∧
    ((∀ q ∈ quotes, q ∈ (importFromJsonFile quotes parsed).quotes) ∧
      quotes.length ≤ (importFromJsonFile quotes parsed).quotes.length) ∧
    ((∀ q ∈ quotes, q ∈ mergeLoop quotes server) ∧
      quotes.length ≤ (mergeLoop quotes server).length) := by
  refine ⟨⟨?_, ?_⟩, ⟨?_, ?_⟩, ⟨?_, ?_⟩⟩
  · intro q hq
    by_cases h : jsTrim t = "" <;> simp [addQuote, h, hq]
  · by_cases h : jsTrim t = "" <;> simp [addQuote, h]
  · intro q hq
    match parsed with
    | none => exact hq
    | some imported =>
      by_cases h : (validQuotes imported).length = 0 <;>
        simp [importFromJsonFile, h, hq]
  · match parsed with
    | none => exact le_rfl
    | some imported =>
      by_cases h : (validQuotes imported).length = 0 <;>
        simp [importFromJsonFile, h]
  · intro q hq
    rw [mergeLoop_eq_append_dedup]
    exact List.mem_append_left _ hq
  · rw [mergeLoop_eq_append_dedup, List.length_append]
    exact Nat.le_add_right _ _

theorem c8_mutators_preserve_witness :
    ({ text := "a", category := "b" } : Quote) ∈
      (addQuote [{ text := "a", category := "b" }] "x" "y").quotes ∧
    ({ text := "a", category := "b" } : Quote) ∈
      (importFromJsonFile [{ text := "a", category := "b" }] none).quotes ∧
    ({ text := "a", category := "b" } : Quote) ∈
      mergeLoop [{ text := "a", category := "b" }] [] :=
  ⟨(c8_mutators_preserve [{ text := "a", category := "b" }] "x" "y" none []).1.1
      { text := "a", category := "b" } (by decide),
   (c8_mutators_preserve [{ text := "a", category := "b" }] "x" "y" none []).2.1.1
      { text := "a", category := "b" } (by decide),
   (c8_mutators_preserve [{ text := "a", category := "b" }] "x" "y" none []).2.2.1
      { text := "a", category := "b" } (by decide)⟩
